import Mathlib

/-!
Verification of the OIDC provider adapter (internal/provider/oidc.go).

The adapter is shallowly embedded: pure logic (group flattening, the
validation in Setup, id-token extraction in ExchangeCode, the staged flow
of GetUser) is translated directly from the Go source; calls into the
external go-oidc and oauth2 libraries (issuer discovery, token exchange
transport, token verification, claim decoding) are modelled as explicit
function parameters, and the logger side effects are dropped (they do not
influence any returned value).
-/

namespace OIDCAdapter

/-- Splitting a character list on the separator character, mirroring Go
strings.Split for the one-character separator "/": an empty input yields
one empty segment, and every separator occurrence starts a new segment.
The accumulator holds the current segment reversed. -/
def splitCharsAux : List Char → List Char → List (List Char)
  | [], acc => [acc.reverse]
  | c :: cs, acc =>
    if c = '/' then acc.reverse :: splitCharsAux cs []
    else splitCharsAux cs (c :: acc)

/-- Go str.Split(groupFull, "/") as used in GetUser (oidc.go line 125). -/
def splitSlash (s : String) : List String :=
  (splitCharsAux s.toList []).map String.mk

/-- Insertion into the key list of the Go map groupMap (oidc.go line 128):
inserting a key already present leaves the key set unchanged, a new key is
appended.  Go map iteration order is indeterminate; this insertion-ordered
list is one deterministic refinement, and every property proved about it
below is a property of the key set (membership, non-duplication), which is
the same for every iteration order. -/
def insertKey (m : List String) (k : String) : List String :=
  if k ∈ m then m else m ++ [k]

/-- One iteration of the outer loop of GetUser (oidc.go lines 124-131):
the segments of one raw group string are inserted into the map, skipping
empty segments. -/
def addGroupSegs (m : List String) (segs : List String) : List String :=
  segs.foldl (fun acc g => if g ≠ "" then insertKey acc g else acc) m

/-- The group flattening performed by GetUser (oidc.go lines 123-132):
every raw group string is split on "/", empty segments are dropped, and
the rest become keys of groupMap; mapKeys then lists the keys
(oidc.go lines 97-103, order indeterminate, here insertion order). -/
def flattenGroups (groups : List String) : List String :=
  groups.foldl (fun acc groupFull => addGroupSegs acc (splitSlash groupFull)) []

/-- The decoded custom claims of GetUser (oidc.go lines 114-118). -/
structure UserClaims where
  email : String
  groups : List String
  deriving DecidableEq

/-- A verified identity token, reduced to what GetUser uses of it: the
outcome of decoding its claim set (idToken.Claims, oidc.go line 119). -/
structure IDToken where
  claims : Except String UserClaims

/-- The provider.User record returned by GetUser (oidc.go line 133). -/
structure User where
  user : String
  groups : List String
  deriving DecidableEq

/-- Error outcomes of GetUser, tagged by the stage of oidc.go that
produced them: verifier.Verify failure (line 109) or claim decoding
failure (line 120). -/
inductive GetUserError where
  | verification (msg : String)
  | claims (msg : String)
  deriving DecidableEq

/-- GetUser (oidc.go lines 106-134), parameterized by the verifier held in
the adapter state after Setup (o.verifier.Verify with the adapter's
context): verify the token, decode the claims, flatten the groups.  The
second string parameter is the unused second parameter of the Go method. -/
def GetUser (verify : String → Except String IDToken)
    (token other : String) : Except GetUserError User :=
  match verify token with
  | Except.error e => Except.error (GetUserError.verification e)
  | Except.ok idToken =>
    match idToken.claims with
    | Except.error e => Except.error (GetUserError.claims e)
    | Except.ok user =>
      Except.ok { user := user.email, groups := flattenGroups user.groups }

/-- The group set described by the spec's words, for comparison with the
source-derived flattenGroups: split every raw group on "/", discard empty
segments, union all segments across all raw group values into one
deduplicated set. -/
def specFlattenedGroupSet (groups : List String) : Finset String :=
  ((groups.map splitSlash).flatten.filter (fun s => s ≠ "")).toFinset

/-- The endpoint pair held by the discovered issuer metadata
(provider.Endpoint() in oidc.go line 59). -/
structure Endpoint where
  authURL : String
  tokenURL : String
  deriving DecidableEq

/-- The discovered issuer (oidc.NewProvider result, oidc.go line 44),
reduced to what the adapter uses of it: its endpoint and the verifier it
produces for a client ID (provider.Verifier, oidc.go lines 66-68). -/
structure Provider where
  endpoint : Endpoint
  verifierOf : String → String → Except String IDToken

/-- The oauth2.Config built by Setup (oidc.go lines 56-63). -/
structure Oauth2Config where
  clientID : String
  clientSecret : String
  endpoint : Endpoint
  scopes : List String

/-- The adapter state (the OIDC struct, oidc.go lines 15-26): the three
configuration strings plus the fields populated by Setup.  The context is
modelled by its presence, the logger by whether it has been installed. -/
structure OIDC where
  issuerURL : String
  clientID : String
  clientSecret : String
  ctx : Option Unit
  provider : Option Provider
  config : Option Oauth2Config
  verifier : Option (String → Except String IDToken)
  myLog : Bool

/-- Error outcomes of Setup, tagged by stage: the configuration check
(oidc.go line 37) or issuer discovery (oidc.go line 46). -/
inductive SetupError where
  | configuration (msg : String)
  | discovery (msg : String)
  deriving DecidableEq

/-- The error message of the configuration check (oidc.go line 37). -/
def setupConfigErrorMsg : String :=
  "providers.oidc.issuer-url, providers.oidc.client-id, providers.oidc.client-secret must be set"

/-- The oidc.ScopeOpenID constant of the go-oidc library. -/
def oidcScopeOpenID : String := "openid"

/-- Setup (oidc.go lines 33-70), parameterized by issuer discovery
(oidc.NewProvider with the adapter's context).  Validation first; on a
missing field the state is returned untouched.  Otherwise the context is
stored, discovery runs (on failure the nil provider is stored and the
error returned), then the logger, the oauth2 config and the verifier are
installed. -/
def Setup (newProvider : String → Except String Provider) (o : OIDC) :
    Except SetupError Unit × OIDC :=
  if o.issuerURL = "" ∨ o.clientID = "" ∨ o.clientSecret = "" then
    (Except.error (SetupError.configuration setupConfigErrorMsg), o)
  else
    let o1 := { o with ctx := some () }
    match newProvider o1.issuerURL with
    | Except.error e =>
      (Except.error (SetupError.discovery e), { o1 with provider := none })
    | Except.ok p =>
      let o2 := { o1 with provider := some p, myLog := true }
      let cfg : Oauth2Config :=
        { clientID := o.clientID, clientSecret := o.clientSecret,
          endpoint := p.endpoint,
          scopes := [oidcScopeOpenID, "profile", "email"] }
      let o3 := { o2 with config := some cfg,
                          verifier := some (p.verifierOf o.clientID) }
      (Except.ok (), o3)

/-- Modelled from the spec: the OAuthProvider.OAuthGetLoginURL helper
called by GetLoginURL (oidc.go line 74) is not among the provided
sources.  Per the spec it is a pure, deterministic construction of an
authorization-request URL embedding the configured client ID, the
supplied redirect URI and the caller-supplied opaque state, with no side
effects. -/
def OAuthGetLoginURL (cfg : Oauth2Config) (redirectURI state : String) : String :=
  cfg.endpoint.authURL ++ "?client_id=" ++ cfg.clientID ++ "&redirect_uri=" ++
    redirectURI ++ "&scope=" ++ String.intercalate "+" cfg.scopes ++
    "&state=" ++ state

/-- GetLoginURL (oidc.go lines 72-75) as a state transformer over the
adapter: it reads the oauth2 config installed by Setup (none before
Setup) and returns the adapter state it was given, since the Go method
mutates nothing. -/
def GetLoginURL (o : OIDC) (redirectURI state : String) : Option String × OIDC :=
  match o.config with
  | none => (none, o)
  | some cfg => (some (OAuthGetLoginURL cfg redirectURI state), o)

/-- The value of one extension field of a token response: either a JSON
string or a value of any other type (on which the Go type assertion
.(string) fails, oidc.go line 85). -/
inductive ExtraValue where
  | str (s : String)
  | nonString
  deriving DecidableEq

/-- The oauth2 token response, reduced to what ExchangeCode uses: the
access token and the named-extension lookup (token.Extra). -/
structure TokenResponse where
  accessToken : String
  extra : String → Option ExtraValue

/-- Error outcomes of ExchangeCode: a failed token-endpoint call
(oidc.go line 80) or a missing or non-string id_token extension
(oidc.go line 87). -/
inductive ExchangeError where
  | exchange (msg : String)
  | missingIdentityToken
  deriving DecidableEq

/-- ExchangeCode (oidc.go lines 78-93), parameterized by the
OAuthExchangeCode transport call: exchange the code, then extract the
id_token extension, failing when it is absent or not a string. -/
def ExchangeCode (oauthExchange : String → String → Except String TokenResponse)
    (redirectURI code : String) : Except ExchangeError String :=
  match oauthExchange redirectURI code with
  | Except.error e => Except.error (ExchangeError.exchange e)
  | Except.ok token =>
    match token.extra "id_token" with
    | some (ExtraValue.str s) => Except.ok s
    | _ => Except.error ExchangeError.missingIdentityToken

/-- Whether the first character list is an initial segment of the second. -/
def prefixOfChars : List Char → List Char → Bool
  | [], _ => true
  | _ :: _, [] => false
  | a :: as, b :: bs => a = b && prefixOfChars as bs

/-- Whether the pattern occurs contiguously somewhere in the list; used to
state that an error message names a configuration field. -/
def containsSeq (pat : List Char) : List Char → Bool
  | [] => prefixOfChars pat []
  | c :: rest => prefixOfChars pat (c :: rest) || containsSeq pat rest

/-- The configuration key of the issuer URL field. -/
def fieldIssuerURL : String := "providers.oidc.issuer-url"

/-- The configuration key of the client ID field. -/
def fieldClientID : String := "providers.oidc.client-id"

/-- The configuration key of the client secret field. -/
def fieldClientSecret : String := "providers.oidc.client-secret"

/-- A concrete verifier accepting every token with a fixed claim set. -/
def cVerifyC1 : String → Except String IDToken := fun _ =>
  Except.ok { claims := Except.ok { email := "a@b.c", groups := ["/teamA/sub", "teamA"] } }

/-- A concrete verifier rejecting every token. -/
def cVerifyC4 : String → Except String IDToken := fun _ =>
  Except.error "token signature invalid"

/-- A concrete verifier whose claims carry one all-slashes raw group. -/
def cVerifyC10 : String → Except String IDToken := fun _ =>
  Except.ok { claims := Except.ok { email := "e@x", groups := ["//"] } }

/-- A concrete exchange whose token response has an access token but no
id_token extension. -/
def cExchangeC3 : String → String → Except String TokenResponse := fun _ _ =>
  Except.ok { accessToken := "access-token", extra := fun _ => none }

/-- A concrete issuer endpoint for the end-to-end scenario. -/
def demoEndpoint : Endpoint :=
  { authURL := "https://issuer.example/auth", tokenURL := "https://issuer.example/token" }

/-- The claim set of the end-to-end scenario. -/
def demoClaims : UserClaims :=
  { email := "u@x.com", groups := ["/org/teamA", "org/teamB/"] }

/-- The identity token string of the end-to-end scenario. -/
def demoIdToken : String := "demo-id-token"

/-- A concrete discovered issuer whose verifier accepts exactly the
end-to-end scenario's identity token. -/
def demoProvider : Provider :=
  { endpoint := demoEndpoint,
    verifierOf := fun _clientID tok =>
      if tok = demoIdToken then Except.ok { claims := Except.ok demoClaims }
      else Except.error "invalid token" }

/-- A concrete discovery function resolving every issuer URL to the
end-to-end scenario's issuer. -/
def demoNewProvider : String → Except String Provider := fun _ => Except.ok demoProvider

/-- A concrete exchange returning the end-to-end scenario's identity
token in the id_token extension. -/
def demoExchange : String → String → Except String TokenResponse := fun _ _ =>
  Except.ok { accessToken := "access-token",
              extra := fun k =>
                if k = "id_token" then some (ExtraValue.str demoIdToken) else none }

/-- A valid unconfigured adapter state. -/
def demoOIDC : OIDC :=
  { issuerURL := "https://issuer.example", clientID := "client-1",
    clientSecret := "secret-1",
    ctx := none, provider := none, config := none, verifier := none, myLog := false }

/-- demoOIDC with an empty client ID. -/
def emptyClientOIDC : OIDC := { demoOIDC with clientID := "" }

/-- demoOIDC with an empty client secret. -/
def emptySecretOIDC : OIDC := { demoOIDC with clientSecret := "" }

theorem insertKey_mem (m : List String) (k a : String) :
    a ∈ insertKey m k ↔ a ∈ m ∨ a = k := by
  unfold insertKey
  by_cases h : k ∈ m
  · simp only [if_pos h]
    constructor
    · exact Or.inl
    · rintro (ha | rfl)
      · exact ha
      · exact h
  · simp [if_neg h]

theorem insertKey_nodup (m : List String) (k : String) (h : m.Nodup) :
    (insertKey m k).Nodup := by
  unfold insertKey
  by_cases hk : k ∈ m
  · simpa [if_pos hk]
  · rw [if_neg hk]
    exact List.Nodup.append h (List.nodup_singleton k)
      (by simp [List.Disjoint]; intro a ha; rintro rfl; exact hk ha)

theorem addGroupSegs_mem (m segs : List String) (a : String) :
    a ∈ addGroupSegs m segs ↔ a ∈ m ∨ (a ∈ segs ∧ a ≠ "") := by
  induction segs generalizing m with
  | nil => simp [addGroupSegs]
  | cons s rest ih =>
    unfold addGroupSegs at ih ⊢
    simp only [List.foldl_cons]
    rw [ih]
    by_cases hs : s = "" <;> simp [hs, insertKey_mem, List.mem_cons] <;> aesop

theorem addGroupSegs_nodup (m segs : List String) (h : m.Nodup) :
    (addGroupSegs m segs).Nodup := by
  induction segs generalizing m with
  | nil => simpa [addGroupSegs]
  | cons s rest ih =>
    unfold addGroupSegs at ih ⊢
    simp only [List.foldl_cons]
    by_cases hs : s ≠ ""
    · exact ih _ (by simpa [if_pos hs] using insertKey_nodup m s h)
    · push_neg at hs
      subst hs
      simpa using ih _ h

theorem flattenFoldl_mem (groups m : List String) (a : String) :
    a ∈ groups.foldl (fun acc groupFull => addGroupSegs acc (splitSlash groupFull)) m ↔
      a ∈ m ∨ ∃ g ∈ groups, a ∈ splitSlash g ∧ a ≠ "" := by
  induction groups generalizing m with
  | nil => simp
  | cons g rest ih =>
    simp only [List.foldl_cons]
    rw [ih, addGroupSegs_mem]
    constructor
    · rintro ((ha | ⟨ha, hne⟩) | ⟨g2, hg2, ha, hne⟩)
      · exact Or.inl ha
      · exact Or.inr ⟨g, List.mem_cons_self _ _, ha, hne⟩
      · exact Or.inr ⟨g2, List.mem_cons_of_mem _ hg2, ha, hne⟩
    · rintro (ha | ⟨g2, hg2, ha, hne⟩)
      · exact Or.inl (Or.inl ha)
      · rcases List.mem_cons.mp hg2 with rfl | hg2
        · exact Or.inl (Or.inr ⟨ha, hne⟩)
        · exact Or.inr ⟨g2, hg2, ha, hne⟩

theorem flattenGroups_mem (groups : List String) (a : String) :
    a ∈ flattenGroups groups ↔ ∃ g ∈ groups, a ∈ splitSlash g ∧ a ≠ "" := by
  unfold flattenGroups
  rw [flattenFoldl_mem]
  simp

theorem flattenGroups_nodup (groups : List String) : (flattenGroups groups).Nodup := by
  unfold flattenGroups
  generalize hm : ([] : List String) = m
  have hnd : m.Nodup := by subst hm; exact List.nodup_nil
  clear hm
  induction groups generalizing m with
  | nil => simpa
  | cons g rest ih =>
    simp only [List.foldl_cons]
    exact ih _ (addGroupSegs_nodup _ _ hnd)

theorem flattenGroups_toFinset (groups : List String) :
    (flattenGroups groups).toFinset = specFlattenedGroupSet groups := by
  ext a
  simp only [List.mem_toFinset, flattenGroups_mem, specFlattenedGroupSet,
    List.mem_filter, List.mem_flatten, List.mem_map]
  constructor
  · rintro ⟨g, hg, ha, hne⟩
    exact ⟨⟨splitSlash g, ⟨g, hg, rfl⟩, ha⟩, by simpa using hne⟩
  · rintro ⟨⟨l, ⟨g, hg, rfl⟩, ha⟩, hne⟩
    exact ⟨g, hg, ha, by simpa using hne⟩

theorem splitCharsAux_nil (acc : List Char) : splitCharsAux [] acc = [acc.reverse] := rfl

theorem splitCharsAux_cons_slash (cs acc : List Char) :
    splitCharsAux ('/' :: cs) acc = acc.reverse :: splitCharsAux cs [] := by
  simp [splitCharsAux]

theorem splitCharsAux_cons_ne (c : Char) (cs acc : List Char) (h : c ≠ '/') :
    splitCharsAux (c :: cs) acc = splitCharsAux cs (c :: acc) := by
  simp [splitCharsAux, h]

theorem splitCharsAux_no_slash (cs : List Char) :
    ∀ acc : List Char, '/' ∉ acc → ∀ l ∈ splitCharsAux cs acc, '/' ∉ l := by
  induction cs with
  | nil =>
    intro acc hacc l hl
    rw [splitCharsAux_nil, List.mem_singleton] at hl
    subst hl
    simpa using hacc
  | cons c rest ih =>
    intro acc hacc l hl
    by_cases hc : c = '/'
    · subst hc
      rw [splitCharsAux_cons_slash, List.mem_cons] at hl
      rcases hl with rfl | hl
      · simpa using hacc
      · exact ih [] (by simp) l hl
    · rw [splitCharsAux_cons_ne c rest acc hc] at hl
      exact ih (c :: acc) (by simp [hacc, Ne.symm hc]) l hl

theorem splitSlash_no_slash (g a : String) (ha : a ∈ splitSlash g) : '/' ∉ a.toList := by
  unfold splitSlash at ha
  rcases List.mem_map.mp ha with ⟨l, hl, rfl⟩
  exact splitCharsAux_no_slash g.toList [] (by simp) l hl

theorem splitCharsAux_all_slash (cs : List Char) :
    ∀ acc : List Char, (∀ c ∈ cs, c = '/') →
      ∀ l ∈ splitCharsAux cs acc, l = acc.reverse ∨ l = [] := by
  induction cs with
  | nil =>
    intro acc _ l hl
    rw [splitCharsAux_nil, List.mem_singleton] at hl
    exact Or.inl hl
  | cons c rest ih =>
    intro acc hall l hl
    have hc : c = '/' := hall c (List.mem_cons_self _ _)
    subst hc
    rw [splitCharsAux_cons_slash, List.mem_cons] at hl
    rcases hl with rfl | hl
    · exact Or.inl rfl
    · rcases ih [] (fun c hc => hall c (List.mem_cons_of_mem _ hc)) l hl with h | h
      · exact Or.inr (by simpa using h)
      · exact Or.inr h

theorem splitSlash_all_slash (g : String) (hg : ∀ c ∈ g.toList, c = '/') :
    ∀ a ∈ splitSlash g, a = "" := by
  intro a ha
  unfold splitSlash at ha
  rcases List.mem_map.mp ha with ⟨l, hl, rfl⟩
  rcases splitCharsAux_all_slash g.toList [] hg l hl with h | h
  · simp only [List.reverse_nil] at h
    subst h
    rfl
  · subst h
    rfl

theorem flattenGroups_all_slash (groups : List String)
    (h : ∀ g ∈ groups, ∀ c ∈ g.toList, c = '/') : flattenGroups groups = [] := by
  rw [List.eq_nil_iff_forall_not_mem]
  intro a ha
  rw [flattenGroups_mem] at ha
  rcases ha with ⟨g, hg, hmem, hne⟩
  exact hne (splitSlash_all_slash g (h g hg) a hmem)

theorem flattenGroups_perm (l₁ l₂ : List String) (h : l₁.Perm l₂) :
    (flattenGroups l₁).toFinset = (flattenGroups l₂).toFinset := by
  ext a
  simp only [List.mem_toFinset, flattenGroups_mem]
  constructor <;> rintro ⟨g, hg, hmem, hne⟩
  · exact ⟨g, h.mem_iff.mp hg, hmem, hne⟩
  · exact ⟨g, h.mem_iff.mpr hg, hmem, hne⟩

theorem flattenGroups_append_self (l : List String) :
    (flattenGroups (l ++ l)).toFinset = (flattenGroups l).toFinset := by
  ext a
  simp only [List.mem_toFinset, flattenGroups_mem, List.mem_append]
  constructor
  · rintro ⟨g, hg | hg, hmem, hne⟩ <;> exact ⟨g, hg, hmem, hne⟩
  · rintro ⟨g, hg, hmem, hne⟩
    exact ⟨g, Or.inl hg, hmem, hne⟩

theorem setup_ok_state (newProvider : String → Except String Provider) (o : OIDC)
    (h : (Setup newProvider o).1 = Except.ok ()) :
    ∃ p : Provider, newProvider o.issuerURL = Except.ok p ∧
      (Setup newProvider o).2 =
        { o with ctx := some (), provider := some p, myLog := true,
                 config := some { clientID := o.clientID,
                                  clientSecret := o.clientSecret,
                                  endpoint := p.endpoint,
                                  scopes := [oidcScopeOpenID, "profile", "email"] },
                 verifier := some (p.verifierOf o.clientID) } := by
  unfold Setup at h ⊢
  by_cases hv : o.issuerURL = "" ∨ o.clientID = "" ∨ o.clientSecret = ""
  · rw [if_pos hv] at h
    exact Except.noConfusion h
  · rw [if_neg hv] at h ⊢
    cases hnp : newProvider o.issuerURL with
    | error e =>
      simp only [hnp] at h
      exact Except.noConfusion h
    | ok p =>
      simp only [hnp]
      exact ⟨p, rfl, rfl⟩

/-- Claim C1: for every verified identity token whose claims decode to an
email and raw group strings, GetUser returns the user whose group set is
the deduplicated union of the slash-split, empty-free segments of all raw
group values; in particular raw groups ["/teamA/sub", "teamA"] yield
exactly the set containing teamA and sub. -/
theorem getUser_group_flattening (verify : String → Except String IDToken)
    (token other : String) (idt : IDToken) (u : UserClaims)
    (hv : verify token = Except.ok idt) (hc : idt.claims = Except.ok u) :
    GetUser verify token other =
      Except.ok { user := u.email, groups := flattenGroups u.groups } ∧
    (flattenGroups u.groups).toFinset = specFlattenedGroupSet u.groups ∧
    (flattenGroups ["/teamA/sub", "teamA"]).toFinset = {"teamA", "sub"} := by
  refine ⟨?_, flattenGroups_toFinset u.groups, by decide⟩
  simp only [GetUser, hv, hc]

/-- Witness for claim C1, at a verifier with raw groups
["/teamA/sub", "teamA"]. -/
theorem getUser_group_flattening_witness :
    GetUser cVerifyC1 "tok1" "" =
      Except.ok { user := "a@b.c", groups := flattenGroups ["/teamA/sub", "teamA"] } ∧
    (flattenGroups ["/teamA/sub", "teamA"]).toFinset =
      specFlattenedGroupSet ["/teamA/sub", "teamA"] ∧
    (flattenGroups ["/teamA/sub", "teamA"]).toFinset = {"teamA", "sub"} :=
  getUser_group_flattening cVerifyC1 "tok1" "" _ _ rfl rfl

/-- Claim C2: group flattening is idempotent and order-independent: the
resulting group set is invariant under permuting the input group list and
under duplicating its entries, and the inputs ["/a/b", "/a/b"],
["a//b/"] and ["/a", "a/b"] each flatten to exactly the set containing a
and b. -/
theorem flattenGroups_idem_order_indep :
    (∀ l₁ l₂ : List String, l₁.Perm l₂ →
      (flattenGroups l₁).toFinset = (flattenGroups l₂).toFinset) ∧
    (∀ l : List String,
      (flattenGroups (l ++ l)).toFinset = (flattenGroups l).toFinset) ∧
    (flattenGroups ["/a/b", "/a/b"]).toFinset = {"a", "b"} ∧
    (flattenGroups ["a//b/"]).toFinset = {"a", "b"} ∧
    (flattenGroups ["/a", "a/b"]).toFinset = {"a", "b"} :=
  ⟨flattenGroups_perm, flattenGroups_append_self, by decide, by decide, by decide⟩

/-- Witness for claim C2, at the permutation of ["/a", "a/b"] and the
duplication of ["/a/b"]. -/
theorem flattenGroups_idem_order_indep_witness :
    (flattenGroups ["/a", "a/b"]).toFinset = (flattenGroups ["a/b", "/a"]).toFinset ∧
    (flattenGroups (["/a/b"] ++ ["/a/b"])).toFinset = (flattenGroups ["/a/b"]).toFinset :=
  ⟨flattenGroups_idem_order_indep.1 ["/a", "a/b"] ["a/b", "/a"] (by decide),
   flattenGroups_idem_order_indep.2.1 ["/a/b"]⟩

/-- Claim C3: whenever the code exchange yields a token response whose
id_token extension is absent or not a string, ExchangeCode fails with the
missing-identity-token error and returns no token string, regardless of
the access token carried by the response. -/
theorem exchangeCode_missing_id_token
    (oauthExchange : String → String → Except String TokenResponse)
    (redirectURI code : String) (tok : TokenResponse)
    (hx : oauthExchange redirectURI code = Except.ok tok)
    (hid : tok.extra "id_token" = none ∨
           tok.extra "id_token" = some ExtraValue.nonString) :
    ExchangeCode oauthExchange redirectURI code =
      Except.error ExchangeError.missingIdentityToken ∧
    ∀ s : String, ExchangeCode oauthExchange redirectURI code ≠ Except.ok s := by
  have h : ExchangeCode oauthExchange redirectURI code =
      Except.error ExchangeError.missingIdentityToken := by
    simp only [ExchangeCode, hx]
    rcases hid with h | h <;> rw [h]
  exact ⟨h, fun s hs => by rw [h] at hs; exact Except.noConfusion hs⟩

/-- Witness for claim C3, at an exchange whose response carries an access
token but no id_token extension. -/
theorem exchangeCode_missing_id_token_witness :
    ExchangeCode cExchangeC3 "https://app/cb" "code1" =
      Except.error ExchangeError.missingIdentityToken ∧
    ∀ s : String, ExchangeCode cExchangeC3 "https://app/cb" "code1" ≠ Except.ok s :=
  exchangeCode_missing_id_token cExchangeC3 "https://app/cb" "code1" _ rfl (Or.inl rfl)

/-- Claim C4: for every token on which the verifier fails, GetUser returns
the verification error of that failure and never a decoded user; the
result is fully determined by the verifier's error, so no claim decoding
or group flattening takes place. -/
theorem getUser_verification_failure (verify : String → Except String IDToken)
    (token other e : String) (hv : verify token = Except.error e) :
    GetUser verify token other = Except.error (GetUserError.verification e) ∧
    ∀ u : User, GetUser verify token other ≠ Except.ok u := by
  have h : GetUser verify token other = Except.error (GetUserError.verification e) := by
    simp only [GetUser, hv]
  exact ⟨h, fun u hu => by rw [h] at hu; exact Except.noConfusion hu⟩

/-- Witness for claim C4, at a verifier rejecting every token. -/
theorem getUser_verification_failure_witness :
    GetUser cVerifyC4 "bad" "" =
      Except.error (GetUserError.verification "token signature invalid") ∧
    ∀ u : User, GetUser cVerifyC4 "bad" "" ≠ Except.ok u :=
  getUser_verification_failure cVerifyC4 "bad" "" "token signature invalid" rfl

/-- Claim C5: Setup fails its validation with the configuration error
exactly when one of issuer URL, client ID or client secret is empty, for
every combination of empty fields, and a configuration error arises in no
other way, so Setup proceeds past validation precisely when all three are
non-empty. -/
theorem setup_validation (newProvider : String → Except String Provider) (o : OIDC) :
    ((Setup newProvider o).1 =
        Except.error (SetupError.configuration setupConfigErrorMsg) ↔
      (o.issuerURL = "" ∨ o.clientID = "" ∨ o.clientSecret = "")) ∧
    (∀ msg, (Setup newProvider o).1 = Except.error (SetupError.configuration msg) →
      (o.issuerURL = "" ∨ o.clientID = "" ∨ o.clientSecret = "")) := by
  unfold Setup
  by_cases h : o.issuerURL = "" ∨ o.clientID = "" ∨ o.clientSecret = ""
  · rw [if_pos h]
    exact ⟨⟨fun _ => h, fun _ => rfl⟩, fun _ _ => h⟩
  · rw [if_neg h]
    cases hnp : newProvider o.issuerURL with
    | error e => simp [hnp, h]
    | ok p => simp [hnp, h]

/-- Witness for claim C5, at a state with an empty client ID. -/
theorem setup_validation_witness :
    (Setup demoNewProvider emptyClientOIDC).1 =
      Except.error (SetupError.configuration setupConfigErrorMsg) ∧
    (emptyClientOIDC.issuerURL = "" ∨ emptyClientOIDC.clientID = "" ∨
      emptyClientOIDC.clientSecret = "") :=
  ⟨((setup_validation demoNewProvider emptyClientOIDC).1).mpr (Or.inr (Or.inl rfl)),
   (setup_validation demoNewProvider emptyClientOIDC).2 setupConfigErrorMsg
     (((setup_validation demoNewProvider emptyClientOIDC).1).mpr (Or.inr (Or.inl rfl)))⟩

/-- Claim C6: when Setup fails because a required configuration field is
missing, the returned configuration error's message names each missing
field, and the adapter state is returned unchanged: no context, provider,
oauth2 config, verifier or logger is installed. -/
theorem setup_config_error_reports_fields
    (newProvider : String → Except String Provider) (o : OIDC)
    (h : o.issuerURL = "" ∨ o.clientID = "" ∨ o.clientSecret = "") :
    (Setup newProvider o).1 =
      Except.error (SetupError.configuration setupConfigErrorMsg) ∧
    (Setup newProvider o).2 = o ∧
    (o.issuerURL = "" →
      containsSeq fieldIssuerURL.toList setupConfigErrorMsg.toList = true) ∧
    (o.clientID = "" →
      containsSeq fieldClientID.toList setupConfigErrorMsg.toList = true) ∧
    (o.clientSecret = "" →
      containsSeq fieldClientSecret.toList setupConfigErrorMsg.toList = true) := by
  unfold Setup
  rw [if_pos h]
  exact ⟨rfl, rfl, fun _ => by decide, fun _ => by decide, fun _ => by decide⟩

/-- Witness for claim C6, at a state with an empty client secret. -/
theorem setup_config_error_reports_fields_witness :
    (Setup demoNewProvider emptySecretOIDC).1 =
      Except.error (SetupError.configuration setupConfigErrorMsg) ∧
    (Setup demoNewProvider emptySecretOIDC).2 = emptySecretOIDC ∧
    (emptySecretOIDC.issuerURL = "" →
      containsSeq fieldIssuerURL.toList setupConfigErrorMsg.toList = true) ∧
    (emptySecretOIDC.clientID = "" →
      containsSeq fieldClientID.toList setupConfigErrorMsg.toList = true) ∧
    (emptySecretOIDC.clientSecret = "" →
      containsSeq fieldClientSecret.toList setupConfigErrorMsg.toList = true) :=
  setup_config_error_reports_fields demoNewProvider emptySecretOIDC (Or.inr (Or.inr rfl))

/-- Claim C7: end-to-end, with a valid configuration, a discovery function
resolving the issuer, and an exchange returning an id_token whose claims
decode to email u at x.com and groups ["/org/teamA", "org/teamB/"],
ExchangeCode succeeds with that token and GetUser on it yields the user
with that email whose group set is exactly org, teamA, teamB. -/
theorem end_to_end_demo :
    (Setup demoNewProvider demoOIDC).1 = Except.ok () ∧
    (Setup demoNewProvider demoOIDC).2.verifier =
      some (demoProvider.verifierOf "client-1") ∧
    ExchangeCode demoExchange "https://app/cb" "code123" = Except.ok demoIdToken ∧
    GetUser (demoProvider.verifierOf "client-1") demoIdToken "" =
      Except.ok { user := "u@x.com", groups := ["org", "teamA", "teamB"] } ∧
    (["org", "teamA", "teamB"] : List String).toFinset = {"org", "teamA", "teamB"} := by
  refine ⟨rfl, rfl, rfl, ?_, by decide⟩
  show GetUser (demoProvider.verifierOf "client-1") demoIdToken "" =
    Except.ok { user := "u@x.com", groups := ["org", "teamA", "teamB"] }
  rfl

/-- Claim C8: after one successful Setup, GetLoginURL is deterministic and
pure: a second call with the same redirect URI and state, on the state
returned by the first call, returns the same result entirely, the adapter
state comes back unchanged, and a URL is produced. -/
theorem getLoginURL_deterministic
    (newProvider : String → Except String Provider) (o : OIDC) (r s : String)
    (h : (Setup newProvider o).1 = Except.ok ()) :
    GetLoginURL (GetLoginURL (Setup newProvider o).2 r s).2 r s =
      GetLoginURL (Setup newProvider o).2 r s ∧
    (GetLoginURL (Setup newProvider o).2 r s).2 = (Setup newProvider o).2 ∧
    ((GetLoginURL (Setup newProvider o).2 r s).1).isSome = true := by
  have hstate : ∀ o' : OIDC, (GetLoginURL o' r s).2 = o' := by
    intro o'
    unfold GetLoginURL
    cases o'.config <;> rfl
  refine ⟨by rw [hstate], hstate _, ?_⟩
  rcases setup_ok_state newProvider o h with ⟨p, _, hst⟩
  rw [hst]
  rfl

/-- Witness for claim C8, at the demo configuration. -/
theorem getLoginURL_deterministic_witness :
    GetLoginURL (GetLoginURL (Setup demoNewProvider demoOIDC).2 "https://app/cb" "st1").2
        "https://app/cb" "st1" =
      GetLoginURL (Setup demoNewProvider demoOIDC).2 "https://app/cb" "st1" ∧
    (GetLoginURL (Setup demoNewProvider demoOIDC).2 "https://app/cb" "st1").2 =
      (Setup demoNewProvider demoOIDC).2 ∧
    ((GetLoginURL (Setup demoNewProvider demoOIDC).2 "https://app/cb" "st1").1).isSome =
      true :=
  getLoginURL_deterministic demoNewProvider demoOIDC "https://app/cb" "st1" rfl

/-- Claim C9: the result of GetUser does not depend on its second
parameter: for every token and every two values of the second argument
the outcomes coincide, since the Go method discards that parameter. -/
theorem getUser_ignores_second_argument (verify : String → Except String IDToken)
    (token s₁ s₂ : String) :
    GetUser verify token s₁ = GetUser verify token s₂ := rfl

/-- Claim C10: every successful GetUser result has a Groups list with no
duplicates, no empty string and no element containing a slash, and when
the groups claim is absent (decoded as the empty list) or every raw group
consists only of slashes, GetUser still succeeds with an empty Groups
list. -/
theorem getUser_groups_invariant (verify : String → Except String IDToken)
    (token other : String) (idt : IDToken) (u : UserClaims)
    (hv : verify token = Except.ok idt) (hc : idt.claims = Except.ok u) :
    GetUser verify token other =
      Except.ok { user := u.email, groups := flattenGroups u.groups } ∧
    (flattenGroups u.groups).Nodup ∧
    (∀ g ∈ flattenGroups u.groups, g ≠ "" ∧ '/' ∉ g.toList) ∧
    (u.groups = [] → flattenGroups u.groups = []) ∧
    ((∀ g ∈ u.groups, ∀ c ∈ g.toList, c = '/') → flattenGroups u.groups = []) := by
  refine ⟨?_, flattenGroups_nodup u.groups, ?_, ?_, flattenGroups_all_slash u.groups⟩
  · simp only [GetUser, hv, hc]
  · intro g hg
    rcases (flattenGroups_mem u.groups g).mp hg with ⟨g0, _, hmem, hne⟩
    exact ⟨hne, splitSlash_no_slash g0 g hmem⟩
  · intro h
    rw [h]
    rfl

/-- Witness for claim C10, at a verifier whose claims carry the raw group
list containing only a slashes-only entry. -/
theorem getUser_groups_invariant_witness :
    GetUser cVerifyC10 "t" "" =
      Except.ok { user := "e@x", groups := flattenGroups ["//"] } ∧
    (flattenGroups (["//"] : List String)).Nodup ∧
    (∀ g ∈ flattenGroups ["//"], g ≠ "" ∧ '/' ∉ g.toList) ∧
    ((["//"] : List String) = [] → flattenGroups ["//"] = []) ∧
    ((∀ g ∈ (["//"] : List String), ∀ c ∈ g.toList, c = '/') →
      flattenGroups ["//"] = []) :=
  getUser_groups_invariant cVerifyC10 "t" "" _ _ rfl rfl

end OIDCAdapter
